import Mathlib

/-!
Shallow embedding of the storage abstraction of the PolygonMigration
repository (`problems/storage/{azure,gcs,gdrive,local,factory}.py` and
`problems/interfaces/storage.py`) together with proofs about the claims
of its specification.

Conventions of the embedding:
* Python strings are Lean `String`s; the Python string primitives used by
  the source (`strip`, `lstrip`, `split`, `startswith`, `upper`) are
  re-implemented below on `List Char` so that everything reduces in the
  kernel.
* Byte content is an opaque type parameter `α` (the source never inspects
  the bytes it stores).
* The flat-namespace backends (Azure Blob Storage, Google Cloud Storage)
  act on a flat key/value container modelled as an association list
  `List (String × α)`; the SDK primitives the source calls
  (`upload_blob(overwrite=True)`, `list_blobs`, `delete_blob(s)`) are
  modelled as the corresponding map operations.
* The Google Drive backend acts on a `DriveState`: a list of items
  (folders and files) with `name`, `parent` id and optional content,
  plus a fresh-id counter; the Drive API calls of the source
  (`files().list/create/update/delete`) are modelled as queries and
  mutations of that list.
* The local backend acts on a `LocalFS`: files keyed by absolute path
  string plus a list of existing directories; `os.path.join/dirname`,
  `os.makedirs`, `shutil.rmtree` and `os.remove` are modelled below.
* Fallible operations return `Except StorageErr`; a `Bool` parameter
  `fail` injects a failure of the underlying SDK/OS call so that the
  propagation behaviour of the `try/except` blocks of the source can be
  stated.
-/

/-! ## Python string primitives -/

/-- Python `s.lstrip(c)` on the character list of `s`. -/
def pyLStripChars (c : Char) (l : List Char) : List Char :=
  l.dropWhile (· == c)

/-- Python `s.rstrip(c)` on the character list of `s`. -/
def pyRStripChars (c : Char) (l : List Char) : List Char :=
  (l.reverse.dropWhile (· == c)).reverse

/-- Python `s.strip(c)` on the character list of `s`. -/
def pyStripChars (c : Char) (l : List Char) : List Char :=
  pyRStripChars c (pyLStripChars c l)

/-- Python `s.strip(c)`. -/
def pyStrip (c : Char) (s : String) : String :=
  ⟨pyStripChars c s.data⟩

/-- Python `s.lstrip(c)`. -/
def pyLStrip (c : Char) (s : String) : String :=
  ⟨pyLStripChars c s.data⟩

/-- Python `s.split(sep)` for a one-character separator, on character
lists: the empty list splits to `[[]]`, and every occurrence of the
separator starts a new (possibly empty) group. -/
def splitChars (sep : Char) : List Char → List (List Char)
  | [] => [[]]
  | c :: rest =>
    match splitChars sep rest with
    | [] => [[]]
    | g :: gs => if c == sep then [] :: g :: gs else (c :: g) :: gs

/-- Python `s.split(sep)` for a one-character separator. -/
def pySplit (sep : Char) (s : String) : List String :=
  (splitChars sep s.data).map (fun l => (⟨l⟩ : String))

/-- Python `s.startswith(p)`. -/
def strStartsWith (s p : String) : Bool :=
  p.data.isPrefixOf s.data

/-- Python `s.endswith(p)`. -/
def strEndsWith (s p : String) : Bool :=
  p.data.reverse.isPrefixOf s.data.reverse

/-- Python `s.upper()` (ASCII case mapping, which covers every
configuration value the factory compares against). -/
def pyUpper (s : String) : String :=
  ⟨s.data.map Char.toUpper⟩

/-! ## Error kinds surfaced by the backends -/

/-- Failure kinds a backend call can surface: a network/service-level
fault of the cloud SDK, or an OS error of the local filesystem. -/
inductive StorageErr where
  | transient
  | osError
deriving DecidableEq, Repr

/-! ## Flat-namespace container (Azure Blob Storage / Google Cloud Storage) -/

/-- Effect on a flat key/value container of an overwriting single-blob
upload (`blob_client.upload_blob(content, overwrite=True)` /
`blob.upload_from_string(content)`): replace the record with this key,
or append a fresh one. -/
def flatPut (k : String) (c : α) : List (String × α) → List (String × α)
  | [] => [(k, c)]
  | (k', c') :: rest =>
    if k' == k then (k, c) :: rest else (k', c') :: flatPut k c rest

/-- All contents stored under a key, in store order (read-back observer
for the flat container). -/
def flatRecordsAt (k : String) (st : List (String × α)) : List α :=
  (st.filter (fun e => e.1 == k)).map (·.2)

/-- Effect of `AzureStorageProvider.upload` on the blob container: the
path is used as the blob name with no normalization. -/
def azure_upload_op (path : String) (c : α) (st : List (String × α)) :
    List (String × α) :=
  flatPut path c st

/-- Effect of `AzureStorageProvider.delete_by_prefix` on the blob
container: list the blobs whose name starts with the prefix and delete
each of them. -/
def azure_delete_by_prefix_op (pre : String) (st : List (String × α)) :
    List (String × α) :=
  st.filter (fun e => !(strStartsWith e.1 pre))

/-- The `AzureStorageProvider.upload` call: the body re-raises any
exception of the SDK call, so an injected failure surfaces as an error. -/
def azure_upload_call (fail : Bool) (path : String) (c : α)
    (st : List (String × α)) : Except StorageErr (List (String × α)) :=
  if fail then .error .transient else .ok (azure_upload_op path c st)

/-- The `AzureStorageProvider.delete_by_prefix` call: the body re-raises
any exception of the listing/deletion calls. -/
def azure_delete_by_prefix_call (fail : Bool) (pre : String)
    (st : List (String × α)) : Except StorageErr (List (String × α)) :=
  if fail then .error .transient else .ok (azure_delete_by_prefix_op pre st)

/-- Effect of `GoogleCloudStorageProvider.upload` on the bucket: leading
slashes are removed from the path (`path.lstrip('/')`) and the result is
the object key. -/
def gcs_upload_op (path : String) (c : α) (st : List (String × α)) :
    List (String × α) :=
  flatPut (pyLStrip '/' path) c st

/-- The `GoogleCloudStorageProvider.upload` call (re-raises failures). -/
def gcs_upload_call (fail : Bool) (path : String) (c : α)
    (st : List (String × α)) : Except StorageErr (List (String × α)) :=
  if fail then .error .transient else .ok (gcs_upload_op path c st)

/-- Effect of `GoogleCloudStorageProvider.delete_by_prefix` on the
bucket: lstrip the prefix, list the blobs under it, return unchanged if
the listing is empty, otherwise batch-delete the listed blobs. -/
def gcs_delete_by_prefix_op (pre : String) (st : List (String × α)) :
    List (String × α) :=
  let clean := pyLStrip '/' pre
  let blobs := st.filter (fun e => strStartsWith e.1 clean)
  if blobs.isEmpty then st
  else st.filter (fun e => !(strStartsWith e.1 clean))

/-- The `GoogleCloudStorageProvider.delete_by_prefix` call (re-raises
failures). -/
def gcs_delete_by_prefix_call (fail : Bool) (pre : String)
    (st : List (String × α)) : Except StorageErr (List (String × α)) :=
  if fail then .error .transient else .ok (gcs_delete_by_prefix_op pre st)

/-! ## Backend selection (`factory.get_storage_provider`) -/

/-- Which concrete provider class the factory instantiates. -/
inductive ProviderKind where
  | azure
  | gdrive
  | gcs
  | localFS
deriving DecidableEq, Repr

/-- The selection performed by `get_storage_provider`:
`getattr(settings, 'STORAGE_PROVIDER', 'LOCAL').upper()` is compared
against the recognized names, with a fallback to the local provider. -/
def get_storage_provider (setting : Option String) : ProviderKind :=
  let pt := pyUpper (setting.getD "LOCAL")
  if pt == "AZURE" then .azure
  else if pt == "GDRIVE" then .gdrive
  else if pt == "GCS" then .gcs
  else if pt == "LOCAL" then .localFS
  else .localFS

/-! ## Local filesystem backend (`local.py`) -/

/-- State of the filesystem visible to the local backend: files keyed by
absolute path string, and the set of existing directories. -/
structure LocalFS (α : Type) where
  files : List (String × α)
  dirs : List String
deriving DecidableEq, Repr

/-- Python `os.path.join(a, b)` for two POSIX path components: an
absolute `b` discards `a` entirely. -/
def osPathJoin (a b : String) : String :=
  if strStartsWith b "/" then b
  else if a == "" || strEndsWith a "/" then a ++ b
  else a ++ "/" ++ b

/-- Python `os.path.dirname(p)` (POSIX): everything up to the last
slash, with trailing slashes stripped unless the head is all slashes. -/
def osPathDirname (p : String) : String :=
  let l := p.data
  if l.contains '/' then
    let base := (l.reverse.takeWhile (fun c => !(c == '/'))).reverse
    let head := l.take (l.length - base.length)
    if head.all (· == '/') then ⟨head⟩ else ⟨pyRStripChars '/' head⟩
  else ""

/-- Whether a directory exists (`os.path.isdir`); the OS ignores
trailing slashes on the queried path. -/
def fsIsDir (p : String) (fs : LocalFS α) : Bool :=
  fs.dirs.contains ⟨pyRStripChars '/' p.data⟩

/-- Whether a regular file exists at exactly this path (`os.path.isfile`). -/
def fsIsFile (p : String) (fs : LocalFS α) : Bool :=
  fs.files.any (fun e => e.1 == p)

/-- Python `os.path.exists`. -/
def fsExists (p : String) (fs : LocalFS α) : Bool :=
  fsIsDir p fs || fsIsFile p fs

/-- Effect of `os.makedirs(d)`: the directory is recorded as existing.
Creation of missing ancestor directories is not observed by any claim
and is elided. -/
def fsMakedirs (d : String) (fs : LocalFS α) : LocalFS α :=
  { fs with dirs := fs.dirs ++ [⟨pyRStripChars '/' d.data⟩] }

/-- Effect of `shutil.rmtree(t)`: the directory itself and every file
and directory strictly below it disappear. -/
def fsRmtree (target : String) (fs : LocalFS α) : LocalFS α :=
  let t : String := ⟨pyRStripChars '/' target.data⟩
  ⟨fs.files.filter (fun e => !(strStartsWith e.1 (t ++ "/"))),
   fs.dirs.filter (fun d => !(d == t) && !(strStartsWith d (t ++ "/")))⟩

/-- Effect of `os.remove(t)`: exactly the file at this path disappears. -/
def fsRemove (target : String) (fs : LocalFS α) : LocalFS α :=
  ⟨fs.files.filter (fun e => !(e.1 == target)), fs.dirs⟩

/-- Effect of `LocalStorageProvider.upload` on the filesystem:
`full_path = os.path.join(base_path, path)`, create the parent
directory if it does not exist, then write the content at `full_path`. -/
def local_upload_op (base path : String) (c : α) (fs : LocalFS α) :
    LocalFS α :=
  let full := osPathJoin base path
  let dir := osPathDirname full
  let fs1 := if fsExists dir fs then fs else fsMakedirs dir fs
  ⟨flatPut full c fs1.files, fs1.dirs⟩

/-- The `LocalStorageProvider.upload` call: the `try` block re-raises
any exception, so an injected OS failure surfaces as an error. -/
def local_upload_call (base : String) (fail : Bool) (path : String)
    (c : α) (fs : LocalFS α) : Except StorageErr (LocalFS α) :=
  if fail then .error .osError else .ok (local_upload_op base path c fs)

/-- Branch structure of `LocalStorageProvider.delete_by_prefix` on the
happy path: `target = os.path.join(base_path, prefix)`; a directory is
removed recursively, a file is removed individually, anything else is a
logged no-op. -/
def local_delete_by_prefix_op (base pre : String) (fs : LocalFS α) :
    LocalFS α :=
  let target := osPathJoin base pre
  if fsIsDir target fs then fsRmtree target fs
  else if fsIsFile target fs then fsRemove target fs
  else fs

/-- The `LocalStorageProvider.delete_by_prefix` call: its `except`
clause only logs — an injected failure of the underlying
`shutil.rmtree`/`os.remove` is swallowed and the call still returns
normally (with the deletion not performed). -/
def local_delete_by_prefix_call (base : String) (fail : Bool)
    (pre : String) (fs : LocalFS α) : Except StorageErr (LocalFS α) :=
  .ok (if fail then fs else local_delete_by_prefix_op base pre fs)

/-! ## Google Drive backend (`gdrive.py`) -/

/-- One object in the Drive corpus: folders and files share the
namespace (a folder is a file with the folder MIME type), are looked up
by `name` and parent id, and carry content only when they are regular
files that have been written. -/
structure DriveItem (α : Type) where
  id : Nat
  name : String
  parent : Nat
  isFolder : Bool
  content : Option α
deriving DecidableEq, Repr

/-- State of the Drive corpus reachable from the configured root folder,
in creation order, plus the id the service will assign next. -/
structure DriveState (α : Type) where
  items : List (DriveItem α)
  nextId : Nat
deriving DecidableEq, Repr

/-- The configured `GOOGLE_DRIVE_FOLDER_ID` root. -/
def rootFolderId : Nat := 0

/-- A Drive corpus with no items below the root. -/
def drvEmpty : DriveState α := ⟨[], 1⟩

/-- The folder query issued by `_get_or_create_folder` and by the
deletion walk: name match, parent match, folder MIME type. Results come
back in corpus order. -/
def folderQuery (name : String) (par : Nat) (st : DriveState α) :
    List (DriveItem α) :=
  st.items.filter (fun it => it.name == name && it.parent == par && it.isFolder)

/-- The file-existence query issued by `upload`: name match and parent
match only — the source omits a MIME-type filter here. -/
def fileQuery (name : String) (par : Nat) (st : DriveState α) :
    List (DriveItem α) :=
  st.items.filter (fun it => it.name == name && it.parent == par)

/-- Helper `_get_or_create_folder`: return the id of the first query result,
or create a fresh folder under the parent and return its id. -/
def getOrCreateFolder (name : String) (par : Nat) (st : DriveState α) :
    Nat × DriveState α :=
  match folderQuery name par st with
  | f :: _ => (f.id, st)
  | [] =>
    (st.nextId, ⟨st.items ++ [⟨st.nextId, name, par, true, none⟩], st.nextId + 1⟩)

/-- The folder loop of `_resolve_path_to_folder`: descend through the
segments, creating missing folders. -/
def resolveFold (fp : List String) (par : Nat) (st : DriveState α) :
    Nat × DriveState α :=
  match fp with
  | [] => (par, st)
  | seg :: rest =>
    let r := getOrCreateFolder seg par st
    resolveFold rest r.1 r.2

/-- Drive call `files().update(fileId=fid, media_body=...)`: replace the content of
the item with this id. -/
def setContent (fid : Nat) (c : α) (st : DriveState α) : DriveState α :=
  ⟨st.items.map (fun it =>
      if it.id == fid then ⟨it.id, it.name, it.parent, it.isFolder, some c⟩
      else it),
   st.nextId⟩

/-- Core of `GoogleDriveStorageProvider.upload`, after the path has been
decomposed into directory segments `fp` and leaf name `leaf`: resolve or
create the folder chain, then update the first existing item with the
leaf's name under the resolved parent, or create a fresh file there. -/
def driveUploadAt (fp : List String) (leaf : String) (c : α)
    (st : DriveState α) : DriveState α :=
  let r := resolveFold fp rootFolderId st
  match fileQuery leaf r.1 r.2 with
  | f :: _ => setContent f.id c r.2
  | [] =>
    ⟨r.2.items ++ [⟨r.2.nextId, leaf, r.1, false, some c⟩], r.2.nextId + 1⟩

/-- Upload entry point `GoogleDriveStorageProvider.upload`: `_resolve_path_to_folder` does
`path.strip('/').split('/')`, takes the last part as the file name and
the rest as the folder path. -/
def driveUpload (path : String) (c : α) (st : DriveState α) : DriveState α :=
  let parts := pySplit '/' (pyStrip '/' path)
  driveUploadAt parts.dropLast (parts.getLastD "") c st

/-- The deletion walk of `delete_by_prefix`: follow folder-typed edges
for every segment; `none` when some segment has no matching folder. -/
def driveResolveFolderChain (parts : List String) (par : Nat)
    (st : DriveState α) : Option Nat :=
  match parts with
  | [] => some par
  | seg :: rest =>
    match folderQuery seg par st with
    | [] => none
    | f :: _ => driveResolveFolderChain rest f.id st

/-- One step of descendant collection: adopt the ids of items whose
parent has already been collected. -/
def descStep (items : List (DriveItem α)) (acc : List Nat) : List Nat :=
  acc ++ (items.filter
    (fun it => acc.contains it.parent && !(acc.contains it.id))).map (·.id)

/-- Fuelled closure of `descStep`. -/
def descClosure (items : List (DriveItem α)) : Nat → List Nat → List Nat
  | 0, acc => acc
  | n + 1, acc => descClosure items n (descStep items acc)

/-- Modelled from the spec: `files().delete(fileId=target)` on a folder
removes the folder and everything beneath it (the service recurses; the
source issues the single delete call). -/
def deleteSubtree (fid : Nat) (st : DriveState α) : DriveState α :=
  let doomed := descClosure st.items st.items.length [fid]
  ⟨st.items.filter (fun it => !(doomed.contains it.id)), st.nextId⟩

/-- Deletion entry point `GoogleDriveStorageProvider.delete_by_prefix`: strip and split the
prefix, walk the folder chain (treating a missing folder as a logged
no-op), then delete the resolved folder with its subtree. -/
def gdrive_delete_by_prefix_op (pre : String) (st : DriveState α) :
    DriveState α :=
  let parts := pySplit '/' (pyStrip '/' pre)
  match driveResolveFolderChain parts rootFolderId st with
  | none => st
  | some target => deleteSubtree target st

/-- Read-back observer for the Drive corpus, composed of the source's
query primitives: navigate the directory segments along folder-typed
edges, then return the items the upload query would see for the leaf. -/
def driveLookupAt (fp : List String) (leaf : String) (st : DriveState α) :
    List (DriveItem α) :=
  match driveResolveFolderChain fp rootFolderId st with
  | none => []
  | some pid => fileQuery leaf pid st

/-- Read-back observer at a path string (same decomposition as
`upload`). -/
def driveLookup (path : String) (st : DriveState α) : List (DriveItem α) :=
  let parts := pySplit '/' (pyStrip '/' path)
  driveLookupAt parts.dropLast (parts.getLastD "") st

/-! ## Folder-chain lemmas for the Drive model -/

/-- The folders `resolveFold` creates when starting from a state in
which every lookup misses: one fresh folder per segment, each the child
of the previous one. -/
def chainItems (names : List String) (par nid : Nat) : List (DriveItem α) :=
  match names with
  | [] => []
  | n :: rest => ⟨nid, n, par, true, none⟩ :: chainItems rest nid (nid + 1)

/-- The parent id `resolveFold` ends on after walking such a chain. -/
def chainEnd (names : List String) (par nid : Nat) : Nat :=
  match names with
  | [] => par
  | _ :: rest => chainEnd rest nid (nid + 1)

theorem chainEnd_cases (names : List String) (par nid : Nat) :
    chainEnd names par nid = par ∨ nid ≤ chainEnd names par nid := by
  induction names generalizing par nid with
  | nil => left; rfl
  | cons n rest ih =>
    rcases ih nid (nid + 1) with h | h
    · right; rw [chainEnd, h]
    · right; rw [chainEnd]; omega

theorem chainItems_parent_lb {α : Type} (names : List String) (par nid : Nat)
    (it : DriveItem α) (hit : it ∈ chainItems names par nid) :
    it.parent = par ∨ nid ≤ it.parent := by
  induction names generalizing par nid with
  | nil => simp [chainItems] at hit
  | cons n rest ih =>
    rw [chainItems, List.mem_cons] at hit
    rcases hit with rfl | hit
    · left; rfl
    · rcases ih nid (nid + 1) hit with h | h
      · right; omega
      · right; omega

theorem chainItems_parent_lt_end {α : Type} (names : List String)
    (par nid : Nat) (hpn : par < nid) (it : DriveItem α)
    (hit : it ∈ chainItems names par nid) :
    it.parent < chainEnd names par nid := by
  induction names generalizing par nid with
  | nil => simp [chainItems] at hit
  | cons n rest ih =>
    rw [chainItems, List.mem_cons] at hit
    rw [chainEnd]
    have hend := chainEnd_cases rest nid (nid + 1)
    rcases hit with rfl | hit
    · simp only
      omega
    · exact ih nid (nid + 1) (by omega) hit

theorem chainItems_id_bounds {α : Type} (names : List String) (par nid : Nat)
    (it : DriveItem α) (hit : it ∈ chainItems names par nid) :
    nid ≤ it.id ∧ it.id < nid + names.length := by
  induction names generalizing par nid with
  | nil => simp [chainItems] at hit
  | cons n rest ih =>
    rw [chainItems, List.mem_cons] at hit
    rcases hit with rfl | hit
    · simp only [List.length_cons]; omega
    · have := ih nid (nid + 1) hit
      simp only [List.length_cons]; omega

theorem resolveFold_creates_chain {α : Type} (names : List String)
    (par nid : Nat) (pre : List (DriveItem α))
    (hpre : ∀ it ∈ pre, it.isFolder = true → it.parent < par)
    (hpn : par < nid) :
    resolveFold names par ⟨pre, nid⟩ =
      (chainEnd names par nid,
        ⟨pre ++ chainItems names par nid, nid + names.length⟩) := by
  induction names generalizing par nid pre with
  | nil => simp [resolveFold, chainItems, chainEnd]
  | cons seg rest ih =>
    have hq : folderQuery seg par (⟨pre, nid⟩ : DriveState α) = [] := by
      refine List.filter_eq_nil_iff.mpr ?_
      intro it hit
      simp only [Bool.and_eq_true, beq_iff_eq, not_and]
      intro h1 hf
      have := hpre it hit hf
      omega
    rw [resolveFold, getOrCreateFolder, hq]
    simp only
    have ih' := ih nid (nid + 1)
      (pre ++ [⟨nid, seg, par, true, none⟩])
      (by
        intro it hit _
        rw [List.mem_append, List.mem_singleton] at hit
        rcases hit with hit | rfl
        · have := hpre it hit ‹it.isFolder = true›
          omega
        · simp only
          omega)
      (by omega)
    rw [ih']
    rw [chainEnd, chainItems]
    simp [List.append_assoc, List.length_cons]
    omega

theorem folderQuery_chain_state {α : Type} (seg : String) (rest : List String)
    (par nid : Nat) (pre post : List (DriveItem α)) (st : DriveState α)
    (hst : st.items = pre ++ chainItems (seg :: rest) par nid ++ post)
    (hpre : ∀ it ∈ pre, it.isFolder = true → it.parent < par)
    (hpost : ∀ it ∈ post, it.isFolder = false)
    (hpn : par < nid) :
    folderQuery seg par st = [⟨nid, seg, par, true, none⟩] := by
  rw [folderQuery, hst, chainItems]
  rw [List.filter_append, List.filter_append]
  have h1 : pre.filter
      (fun it => it.name == seg && it.parent == par && it.isFolder) = [] := by
    refine List.filter_eq_nil_iff.mpr ?_
    intro it hit
    simp only [Bool.and_eq_true, beq_iff_eq, not_and]
    intro h1 hf
    have := hpre it hit hf
    omega
  have h2 : post.filter
      (fun it => it.name == seg && it.parent == par && it.isFolder) = [] := by
    refine List.filter_eq_nil_iff.mpr ?_
    intro it hit
    simp only [Bool.and_eq_true, beq_iff_eq, not_and]
    intro h1 hf
    rw [hpost it hit] at hf
    exact absurd hf (by simp)
  have h3 : (chainItems rest nid (nid + 1)).filter
      (fun it => it.name == seg && it.parent == par && (it.isFolder : Bool)) =
        ([] : List (DriveItem α)) := by
    refine List.filter_eq_nil_iff.mpr ?_
    intro it hit
    simp only [Bool.and_eq_true, beq_iff_eq, not_and]
    intro h1 hf
    rcases chainItems_parent_lb rest nid (nid + 1) it hit with h | h <;> omega
  rw [h1, h2, List.filter_cons, h3]
  simp

theorem resolveFold_finds_chain {α : Type} (names : List String)
    (par nid : Nat) (pre post : List (DriveItem α)) (st : DriveState α)
    (hst : st.items = pre ++ chainItems names par nid ++ post)
    (hpre : ∀ it ∈ pre, it.isFolder = true → it.parent < par)
    (hpost : ∀ it ∈ post, it.isFolder = false)
    (hpn : par < nid) :
    resolveFold names par st = (chainEnd names par nid, st) := by
  induction names generalizing par nid pre with
  | nil => simp [resolveFold, chainEnd]
  | cons seg rest ih =>
    have hq := folderQuery_chain_state seg rest par nid pre post st hst hpre hpost hpn
    rw [resolveFold, getOrCreateFolder, hq]
    simp only
    rw [chainEnd]
    refine ih nid (nid + 1) (pre ++ [⟨nid, seg, par, true, none⟩]) ?_ ?_ (by omega)
    · rw [hst, chainItems]
      simp [List.append_assoc]
    · intro it hit _
      rw [List.mem_append, List.mem_singleton] at hit
      rcases hit with hit | rfl
      · have := hpre it hit ‹it.isFolder = true›
        omega
      · simp only
        omega

theorem folderChain_finds_chain {α : Type} (names : List String)
    (par nid : Nat) (pre post : List (DriveItem α)) (st : DriveState α)
    (hst : st.items = pre ++ chainItems names par nid ++ post)
    (hpre : ∀ it ∈ pre, it.isFolder = true → it.parent < par)
    (hpost : ∀ it ∈ post, it.isFolder = false)
    (hpn : par < nid) :
    driveResolveFolderChain names par st = some (chainEnd names par nid) := by
  induction names generalizing par nid pre with
  | nil => simp [driveResolveFolderChain, chainEnd]
  | cons seg rest ih =>
    have hq := folderQuery_chain_state seg rest par nid pre post st hst hpre hpost hpn
    rw [driveResolveFolderChain, hq]
    simp only
    rw [chainEnd]
    refine ih nid (nid + 1) (pre ++ [⟨nid, seg, par, true, none⟩]) ?_ ?_ (by omega)
    · rw [hst, chainItems]
      simp [List.append_assoc]
    · intro it hit _
      rw [List.mem_append, List.mem_singleton] at hit
      rcases hit with hit | rfl
      · have := hpre it hit ‹it.isFolder = true›
        omega
      · simp only
        omega

/-- The Drive corpus produced by a first upload into an empty corpus:
the folder chain for the directory segments plus one fresh file. -/
def stAfterPut (fp : List String) (leaf : String) (c : α) : DriveState α :=
  ⟨chainItems fp 0 1 ++
      [⟨1 + fp.length, leaf, chainEnd fp 0 1, false, some c⟩],
    1 + fp.length + 1⟩

theorem chainItems_fileFilter_empty {α : Type} (fp : List String)
    (leaf : String) :
    (chainItems fp 0 1 : List (DriveItem α)).filter
      (fun it => it.name == leaf && it.parent == chainEnd fp 0 1) = [] := by
  refine List.filter_eq_nil_iff.mpr ?_
  intro it hit
  simp only [Bool.and_eq_true, beq_iff_eq, not_and]
  intro _
  have := chainItems_parent_lt_end fp 0 1 (by omega) it hit
  omega

theorem driveUploadAt_first {α : Type} (fp : List String) (leaf : String)
    (c : α) :
    driveUploadAt fp leaf c drvEmpty = stAfterPut fp leaf c := by
  rw [driveUploadAt]
  have hres := resolveFold_creates_chain fp rootFolderId 1 ([] : List (DriveItem α))
    (by intro it hit; simp at hit) (by simp [rootFolderId])
  rw [show (drvEmpty : DriveState α) = ⟨[], 1⟩ from rfl, hres]
  simp only
  have hq : fileQuery leaf (chainEnd fp rootFolderId 1)
      (⟨[] ++ chainItems fp rootFolderId 1, 1 + fp.length⟩ : DriveState α) = [] := by
    rw [fileQuery]
    simp only [List.nil_append]
    exact chainItems_fileFilter_empty fp leaf
  rw [hq]
  rw [stAfterPut]
  simp [rootFolderId]

theorem fileQuery_stAfterPut {α : Type} (fp : List String) (leaf : String)
    (c : α) :
    fileQuery leaf (chainEnd fp 0 1) (stAfterPut fp leaf c) =
      [⟨1 + fp.length, leaf, chainEnd fp 0 1, false, some c⟩] := by
  rw [fileQuery, stAfterPut]
  simp only [List.filter_append]
  rw [chainItems_fileFilter_empty fp leaf]
  simp

theorem driveUploadAt_second {α : Type} (fp : List String) (leaf : String)
    (c1 c2 : α) :
    driveUploadAt fp leaf c2 (stAfterPut fp leaf c1) = stAfterPut fp leaf c2 := by
  rw [driveUploadAt]
  have hres := resolveFold_finds_chain fp rootFolderId 1 ([] : List (DriveItem α))
    [⟨1 + fp.length, leaf, chainEnd fp 0 1, false, some c1⟩]
    (stAfterPut fp leaf c1)
    (by rw [stAfterPut]; simp [rootFolderId])
    (by intro it hit; simp at hit)
    (by intro it hit; rw [List.mem_singleton] at hit; rw [hit])
    (by simp [rootFolderId])
  rw [hres]
  simp only
  rw [show (rootFolderId : Nat) = 0 from rfl]
  rw [fileQuery_stAfterPut fp leaf c1]
  simp only
  rw [setContent, stAfterPut, stAfterPut]
  simp only [List.map_append]
  congr 1
  · have hchain : (chainItems fp 0 1 : List (DriveItem α)).map
        (fun it => if it.id == 1 + fp.length then
          (⟨it.id, it.name, it.parent, it.isFolder, some c2⟩ : DriveItem α) else it) =
        chainItems fp 0 1 := by
      rw [List.map_congr_left ?_, List.map_id']
      intro it hit
      have := chainItems_id_bounds fp 0 1 it hit
      have hne : (it.id == 1 + fp.length) = false := by
        simp only [beq_eq_false_iff_ne, ne_eq]
        omega
      rw [hne]
      simp
    rw [hchain]
    simp

theorem driveLookupAt_stAfterPut {α : Type} (fp : List String) (leaf : String)
    (c : α) :
    driveLookupAt fp leaf (stAfterPut fp leaf c) =
      [⟨1 + fp.length, leaf, chainEnd fp 0 1, false, some c⟩] := by
  rw [driveLookupAt]
  have hres := folderChain_finds_chain fp rootFolderId 1 ([] : List (DriveItem α))
    [⟨1 + fp.length, leaf, chainEnd fp 0 1, false, some c⟩]
    (stAfterPut fp leaf c)
    (by rw [stAfterPut]; simp [rootFolderId])
    (by intro it hit; simp at hit)
    (by intro it hit; rw [List.mem_singleton] at hit; rw [hit])
    (by simp [rootFolderId])
  rw [hres]
  rw [show (rootFolderId : Nat) = 0 from rfl]
  exact fileQuery_stAfterPut fp leaf c

/-! ## String normalization lemmas -/

theorem pyRStripChars_append_sep (c : Char) (l : List Char) :
    pyRStripChars c (l ++ [c]) = pyRStripChars c l := by
  simp [pyRStripChars, List.dropWhile_cons]

theorem pyStripChars_wrap (c : Char) (l : List Char) :
    pyStripChars c (c :: (l ++ [c])) = pyStripChars c l := by
  rw [pyStripChars, pyStripChars, pyLStripChars, pyLStripChars,
    List.dropWhile_cons]
  simp only [beq_self_eq_true, if_true]
  rw [List.dropWhile_append]
  by_cases h : (l.dropWhile (· == c)).isEmpty
  · rw [if_pos h]
    rw [List.isEmpty_iff] at h
    rw [h]
    simp [List.dropWhile_cons, pyRStripChars]
  · rw [if_neg h]
    exact pyRStripChars_append_sep c _

theorem pyStrip_wrap (p : String) :
    pyStrip '/' ("/" ++ p ++ "/") = pyStrip '/' p := by
  rw [pyStrip, pyStrip]
  congr 1
  have hd : ("/" ++ p ++ "/").data = '/' :: (p.data ++ ['/']) := by
    simp [String.data_append]
  rw [hd]
  exact pyStripChars_wrap '/' p.data

theorem pyLStrip_lead (p : String) :
    pyLStrip '/' ("/" ++ p) = pyLStrip '/' p := rfl

/-! ## Claim C1 -/

/-- Claim C1, as stated, is false: empty segments are not discarded, so
`Put("/a//b/c", d)` and `Put("a/b/c", d)` store at different locations
on the GCS, Azure and Google Drive backends. -/
theorem c1_counterexample :
    gcs_upload_op "/a//b/c" (0 : Nat) [] ≠ gcs_upload_op "a/b/c" 0 []
    ∧ azure_upload_op "/a//b/c" (0 : Nat) [] ≠ azure_upload_op "a/b/c" 0 []
    ∧ driveUpload "/a//b/c" (0 : Nat) drvEmpty ≠ driveUpload "a/b/c" 0 drvEmpty := by
  refine ⟨?_, ?_, ?_⟩ <;> decide

/-- Claim C1, amended: only slash trimming happens — Google Drive strips
leading and trailing slashes (so `Put("/p/")` and `Put("p")` coincide
there) and GCS strips leading slashes (so `Put("/p")` and `Put("p")`
coincide there); empty segments are kept, and Azure and the local
backend apply no normalization at all. -/
theorem c1_slash_trim_amended {α : Type} (p : String) (c : α)
    (st : List (String × α)) (dst : DriveState α) :
    driveUpload ("/" ++ p ++ "/") c dst = driveUpload p c dst
    ∧ gcs_upload_op ("/" ++ p) c st = gcs_upload_op p c st := by
  constructor
  · rw [driveUpload, driveUpload, pyStrip_wrap]
  · rw [gcs_upload_op, gcs_upload_op, pyLStrip_lead]

/-! ## Claim C4 -/

/-- Claim C4, as stated, is false: a `Put` whose path normalizes to an
empty leaf does not fail — GCS returns success and stores the content
under the empty key, and Google Drive creates a file record with an
empty name instead of raising anything. -/
theorem c4_counterexample :
    gcs_upload_call false "///" (0 : Nat) [] = .ok [("", 0)]
    ∧ driveUpload "///" (0 : Nat) drvEmpty ≠ drvEmpty := by
  refine ⟨rfl, ?_⟩
  decide

/-- Claim C4, amended: no backend validates the path — a `Put` whose
path normalizes to an empty leaf succeeds, GCS storing the content at
the empty object key and Google Drive creating a file with an empty
name under the root; there is no `InvalidPath` error kind. -/
theorem c4_empty_leaf_amended {α : Type} (c : α) (st : List (String × α)) :
    gcs_upload_call false "///" c st = .ok (flatPut "" c st)
    ∧ driveUpload "///" c drvEmpty
      = ⟨[⟨1, "", rootFolderId, false, some c⟩], 2⟩ :=
  ⟨rfl, rfl⟩

/-! ## Claim C2 -/

/-- Claim C2, as stated, is false for the Google Drive backend: with a
single leaf file `f` under the root, `delete_by_prefix("f")` leaves the
corpus unchanged (the walk queries folders only), instead of deleting
the leaf. -/
theorem c2_counterexample :
    gdrive_delete_by_prefix_op "f"
        (⟨[⟨1, "f", rootFolderId, false, some 0⟩], 2⟩ : DriveState Nat)
      = ⟨[⟨1, "f", rootFolderId, false, some 0⟩], 2⟩ := by
  decide

/-- Claim C2, amended: on the local backend a prefix that resolves to an
existing leaf file (and not to a directory) deletes exactly that leaf
and returns success, leaving all other files and all directories
unchanged; on Google Drive the deletion walk matches folders only, so a
prefix whose chain fails at some segment — as it does when the prefix
names a leaf file — is treated as not found and the call returns
success without deleting anything. -/
theorem c2_leaf_delete_amended {α : Type} (base pre : String)
    (fs : LocalFS α) (st : DriveState α)
    (hdir : fsIsDir (osPathJoin base pre) fs = false)
    (hfile : fsIsFile (osPathJoin base pre) fs = true)
    (hwalk : driveResolveFolderChain (pySplit '/' (pyStrip '/' pre))
        rootFolderId st = none) :
    local_delete_by_prefix_call base false pre fs
      = .ok ⟨fs.files.filter (fun e => !(e.1 == osPathJoin base pre)), fs.dirs⟩
    ∧ gdrive_delete_by_prefix_op pre st = st := by
  constructor
  · rw [local_delete_by_prefix_call, local_delete_by_prefix_op]
    simp only [hdir, hfile]
    simp [fsRemove]
  · rw [gdrive_delete_by_prefix_op]
    rw [hwalk]

/-- Witness for the amended claim C2: deleting the prefix `a/f` when
`/m/a/f` is a local file removes exactly that file; the same prefix on a
Drive corpus holding the file `f` inside folder `a` is a no-op. -/
theorem c2_leaf_delete_amended_witness :
    (fsIsDir (osPathJoin "/m" "a/f")
        (⟨[("/m/a/f", (0 : Nat))], ["/m", "/m/a"]⟩ : LocalFS Nat) = false
      ∧ fsIsFile (osPathJoin "/m" "a/f")
        (⟨[("/m/a/f", (0 : Nat))], ["/m", "/m/a"]⟩ : LocalFS Nat) = true
      ∧ driveResolveFolderChain (pySplit '/' (pyStrip '/' "a/f")) rootFolderId
        (⟨[⟨1, "a", rootFolderId, true, none⟩, ⟨2, "f", 1, false, some 0⟩], 3⟩
          : DriveState Nat) = none)
    ∧ (local_delete_by_prefix_call "/m" false "a/f"
        (⟨[("/m/a/f", (0 : Nat))], ["/m", "/m/a"]⟩ : LocalFS Nat)
        = .ok ⟨[("/m/a/f", (0 : Nat))].filter
            (fun e => !(e.1 == osPathJoin "/m" "a/f")), ["/m", "/m/a"]⟩
      ∧ gdrive_delete_by_prefix_op "a/f"
        (⟨[⟨1, "a", rootFolderId, true, none⟩, ⟨2, "f", 1, false, some 0⟩], 3⟩
          : DriveState Nat)
        = ⟨[⟨1, "a", rootFolderId, true, none⟩, ⟨2, "f", 1, false, some 0⟩], 3⟩) :=
  ⟨⟨by decide, by decide, by decide⟩,
    c2_leaf_delete_amended "/m" "a/f" _ _ (by decide) (by decide) (by decide)⟩

/-! ## Claim C3 -/

/-- Claim C3 names a real bug in the code: when the underlying deletion
raises, `LocalStorageProvider.delete_by_prefix` catches the exception,
logs it and returns success with nothing deleted, while every other
cited call (`local` upload, Azure upload and delete, GCS delete)
re-raises as the spec demands. -/
theorem c3_swallowed_failure :
    local_delete_by_prefix_call "/srv/media" true "test_cases/101/"
        (⟨[("/srv/media/test_cases/101/01", (0 : Nat))],
          ["/srv/media", "/srv/media/test_cases", "/srv/media/test_cases/101"]⟩)
      = .ok ⟨[("/srv/media/test_cases/101/01", (0 : Nat))],
          ["/srv/media", "/srv/media/test_cases", "/srv/media/test_cases/101"]⟩
    ∧ azure_delete_by_prefix_call true "test_cases/101/"
        [("test_cases/101/01", (0 : Nat))] = .error .transient
    ∧ azure_upload_call true "a" (0 : Nat) [] = .error .transient
    ∧ gcs_delete_by_prefix_call true "x" ([] : List (String × Nat))
      = .error .transient
    ∧ local_upload_call "/srv/media" true "a" (0 : Nat) ⟨[], []⟩
      = .error .osError := by
  refine ⟨rfl, rfl, rfl, rfl, rfl⟩

/-! ## Claim C7 -/

/-- Claim C7 holds: `Put("x/y/1", d)` followed by `Put("x/y/2", d)` on
the Google Drive backend creates exactly one folder named `x` under the
root (the one with id 1) and exactly one folder named `y` under it (the
one with id 2) — the second call reuses both. -/
theorem c7_folder_reuse {α : Type} (d : α) :
    ((driveUpload "x/y/2" d (driveUpload "x/y/1" d drvEmpty)).items.filter
        (fun it => it.isFolder && it.name == "x"
          && it.parent == rootFolderId)).map (·.id) = [1]
    ∧ ((driveUpload "x/y/2" d (driveUpload "x/y/1" d drvEmpty)).items.filter
        (fun it => it.isFolder && it.name == "y" && it.parent == 1)).map (·.id)
      = [2] :=
  ⟨rfl, rfl⟩

/-! ## Claim C6 -/

/-- Claim C6 holds: on every backend, a `DeletePrefix` whose target
matches nothing — no stored key starts with the (normalized) prefix on
the flat backends, the folder walk fails on Drive, neither a directory
nor a file exists at the joined target locally — returns success and
leaves the store unchanged. -/
theorem c6_missing_target_noop {α : Type} (pre base : String)
    (stA stG : List (String × α)) (dst : DriveState α) (fs : LocalFS α)
    (hA : ∀ e ∈ stA, strStartsWith e.1 pre = false)
    (hG : ∀ e ∈ stG, strStartsWith e.1 (pyLStrip '/' pre) = false)
    (hD : driveResolveFolderChain (pySplit '/' (pyStrip '/' pre))
        rootFolderId dst = none)
    (hdir : fsIsDir (osPathJoin base pre) fs = false)
    (hfile : fsIsFile (osPathJoin base pre) fs = false) :
    azure_delete_by_prefix_call false pre stA = .ok stA
    ∧ gcs_delete_by_prefix_call false pre stG = .ok stG
    ∧ gdrive_delete_by_prefix_op pre dst = dst
    ∧ local_delete_by_prefix_call base false pre fs = .ok fs := by
  refine ⟨?_, ?_, ?_, ?_⟩
  · rw [azure_delete_by_prefix_call]
    simp only [Bool.false_eq_true, if_false]
    rw [azure_delete_by_prefix_op]
    congr 1
    refine List.filter_eq_self.mpr ?_
    intro e he
    rw [hA e he]
    rfl
  · rw [gcs_delete_by_prefix_call]
    simp only [Bool.false_eq_true, if_false]
    rw [gcs_delete_by_prefix_op]
    have hblobs : stG.filter (fun e => strStartsWith e.1 (pyLStrip '/' pre)) = [] :=
      List.filter_eq_nil_iff.mpr (by intro e he; rw [hG e he]; simp)
    simp only [hblobs, List.isEmpty_nil, if_true]
  · rw [gdrive_delete_by_prefix_op]
    rw [hD]
  · rw [local_delete_by_prefix_call, local_delete_by_prefix_op]
    simp only [hdir, hfile]
    simp

/-- Witness for claim C6: a prefix matched by nothing is a success
no-op on all four backends. -/
theorem c6_missing_target_noop_witness :
    ((∀ e ∈ [("a", (1 : Nat))], strStartsWith e.1 "none/x" = false)
      ∧ (∀ e ∈ [("b", (2 : Nat))], strStartsWith e.1 (pyLStrip '/' "none/x") = false)
      ∧ driveResolveFolderChain (pySplit '/' (pyStrip '/' "none/x")) rootFolderId
          (drvEmpty : DriveState Nat) = none
      ∧ fsIsDir (osPathJoin "/m" "none/x")
          (⟨[("/m/a", (1 : Nat))], ["/m"]⟩ : LocalFS Nat) = false
      ∧ fsIsFile (osPathJoin "/m" "none/x")
          (⟨[("/m/a", (1 : Nat))], ["/m"]⟩ : LocalFS Nat) = false)
    ∧ (azure_delete_by_prefix_call false "none/x" [("a", (1 : Nat))]
        = .ok [("a", (1 : Nat))]
      ∧ gcs_delete_by_prefix_call false "none/x" [("b", (2 : Nat))]
        = .ok [("b", (2 : Nat))]
      ∧ gdrive_delete_by_prefix_op "none/x" (drvEmpty : DriveState Nat) = drvEmpty
      ∧ local_delete_by_prefix_call "/m" false "none/x"
          (⟨[("/m/a", (1 : Nat))], ["/m"]⟩ : LocalFS Nat)
        = .ok ⟨[("/m/a", (1 : Nat))], ["/m"]⟩) :=
  ⟨⟨by decide, by decide, by decide, by decide, by decide⟩,
    c6_missing_target_noop "none/x" "/m" _ _ _ _
      (by decide) (by decide) (by decide) (by decide) (by decide)⟩

/-! ## Claims C8 and C10 (backend selection) -/

theorem char_toNat_ofNat_valid (m : Nat) (h : m < 55296) :
    (Char.ofNat m).toNat = m := by
  have hv : m.isValidChar := Or.inl h
  rw [Char.ofNat, dif_pos hv]
  simp [Char.toNat, Char.ofNatAux, UInt32.toNat, UInt32.ofNat']

theorem char_toUpper_idem (c : Char) : c.toUpper.toUpper = c.toUpper := by
  unfold Char.toUpper
  by_cases h : c.toNat ≥ 97 ∧ c.toNat ≤ 122
  · rw [if_pos h]
    have h2 : (Char.ofNat (c.toNat - 32)).toNat = c.toNat - 32 :=
      char_toNat_ofNat_valid _ (by omega)
    rw [if_neg (by rw [h2]; omega)]
  · rw [if_neg h, if_neg h]

theorem pyUpper_idem (s : String) : pyUpper (pyUpper s) = pyUpper s := by
  rw [pyUpper, pyUpper]
  congr 1
  rw [List.map_map]
  exact List.map_congr_left (by intro c _; exact char_toUpper_idem c)

/-- Claim C8 holds: a configuration value that is not (case-folded) one
of the four recognized names falls back to the local provider, and so
does an absent setting. -/
theorem c8_unrecognized_fallback (s : String)
    (h : pyUpper s ∉ (["AZURE", "GDRIVE", "GCS", "LOCAL"] : List String)) :
    get_storage_provider (some s) = .localFS
    ∧ get_storage_provider none = .localFS := by
  obtain ⟨h1, h2, h3, h4⟩ :
      pyUpper s ≠ "AZURE" ∧ pyUpper s ≠ "GDRIVE" ∧ pyUpper s ≠ "GCS"
        ∧ pyUpper s ≠ "LOCAL" := by
    simpa using h
  constructor
  · rw [get_storage_provider]
    simp [Option.getD, h1, h2, h3, h4]
  · rfl

/-- Witness for claim C8: the unrecognized value `s3` selects the local
provider. -/
theorem c8_unrecognized_fallback_witness :
    (pyUpper "s3" ∉ (["AZURE", "GDRIVE", "GCS", "LOCAL"] : List String))
    ∧ (get_storage_provider (some "s3") = .localFS
      ∧ get_storage_provider none = .localFS) :=
  ⟨by decide, c8_unrecognized_fallback "s3" (by decide)⟩

/-- Claim C10 holds: selection is case-insensitive — every setting
selects the same provider as its upper-cased form, and in particular
the lower-case value `azure` selects the Azure provider. -/
theorem c10_case_insensitive_selection (s : String) :
    get_storage_provider (some s) = get_storage_provider (some (pyUpper s))
    ∧ get_storage_provider (some "azure") = .azure := by
  constructor
  · rw [get_storage_provider, get_storage_provider]
    simp only [Option.getD]
    simp only [pyUpper_idem]
  · rfl

/-! ## Flat-container lemmas for claim C5 -/

theorem filter_key_eq_nil {α : Type} (k : String) (st : List (String × α))
    (h : k ∉ st.map Prod.fst) :
    st.filter (fun e => e.1 == k) = [] := by
  refine List.filter_eq_nil_iff.mpr ?_
  intro e he
  simp only [beq_iff_eq]
  intro hek
  exact h (by rw [← hek]; exact List.mem_map_of_mem Prod.fst he)

theorem flatPut_keys {α : Type} (k : String) (c : α) (st : List (String × α)) :
    (flatPut k c st).map Prod.fst =
      if k ∈ st.map Prod.fst then st.map Prod.fst
      else st.map Prod.fst ++ [k] := by
  induction st with
  | nil => simp [flatPut]
  | cons e rest ih =>
    obtain ⟨k', c'⟩ := e
    rw [flatPut]
    by_cases hk : (k' == k) = true
    · rw [if_pos hk]
      rw [beq_iff_eq] at hk
      subst hk
      simp
    · rw [if_neg hk]
      rw [beq_iff_eq] at hk
      simp only [List.map_cons]
      by_cases hmem : k ∈ rest.map Prod.fst
      · rw [if_pos (List.mem_cons_of_mem k' hmem), ih, if_pos hmem]
      · have hout : k ∉ k' :: rest.map Prod.fst := by
          intro hcon
          rcases List.mem_cons.mp hcon with h | h
          · exact hk h.symm
          · exact hmem h
        rw [if_neg hout, ih, if_neg hmem]
        rfl

theorem flatPut_nodup {α : Type} (k : String) (c : α) (st : List (String × α))
    (h : (st.map Prod.fst).Nodup) :
    ((flatPut k c st).map Prod.fst).Nodup := by
  rw [flatPut_keys]
  by_cases hk : k ∈ st.map Prod.fst
  · rw [if_pos hk]
    exact h
  · rw [if_neg hk]
    refine List.Nodup.append h (List.nodup_singleton k) ?_
    intro a ha hb
    rw [List.mem_singleton] at hb
    subst hb
    exact hk ha

theorem flatRecordsAt_flatPut {α : Type} (k : String) (c : α)
    (st : List (String × α)) (h : (st.map Prod.fst).Nodup) :
    flatRecordsAt k (flatPut k c st) = [c] := by
  induction st with
  | nil => simp [flatPut, flatRecordsAt]
  | cons e rest ih =>
    obtain ⟨k', c'⟩ := e
    rw [List.map_cons, List.nodup_cons] at h
    obtain ⟨hk', hrest⟩ := h
    rw [flatPut]
    by_cases hk : (k' == k) = true
    · rw [if_pos hk]
      rw [beq_iff_eq] at hk
      subst hk
      rw [flatRecordsAt, List.filter_cons]
      simp only [beq_self_eq_true, if_true]
      rw [filter_key_eq_nil k' rest hk']
      rfl
    · rw [if_neg hk]
      rw [flatRecordsAt, List.filter_cons]
      rw [if_neg (by simpa using hk)]
      exact ih hrest

/-! ## Claim C5 -/

theorem driveUpload_eq_At {α : Type} (p : String) (c : α) (st : DriveState α) :
    driveUpload p c st
      = driveUploadAt (pySplit '/' (pyStrip '/' p)).dropLast
          ((pySplit '/' (pyStrip '/' p)).getLastD "") c st := rfl

theorem driveLookup_eq_At {α : Type} (p : String) (st : DriveState α) :
    driveLookup p st
      = driveLookupAt (pySplit '/' (pyStrip '/' p)).dropLast
          ((pySplit '/' (pyStrip '/' p)).getLastD "") st := rfl

/-- Both branches of the directory-existence check in
`LocalStorageProvider.upload` leave the file table updated by a single
overwriting write at the joined path (`os.makedirs` only touches
directories). -/
theorem local_upload_op_files {α : Type} (base p : String) (c : α)
    (fs : LocalFS α) :
    (local_upload_op base p c fs).files
      = flatPut (osPathJoin base p) c fs.files := by
  rw [local_upload_op]
  by_cases hex : fsExists (osPathDirname (osPathJoin base p)) fs = true
  · simp only [hex, if_true]
  · simp only [Bool.not_eq_true] at hex
    simp [hex, fsMakedirs]

/-- Claim C5 holds: on the flat backends and on the local filesystem two
successive `Put`s to the same path leave exactly one record at the
stored key, holding the second content; on Google Drive (starting from
an empty corpus) the second `Put` finds the file the first one created
and updates it in place — the read-back sees one record with the second
content, no item was added, and the file keeps its identity. -/
theorem c5_idempotent_overwrite {α : Type} (base p : String) (c1 c2 : α)
    (stA stG : List (String × α)) (fsL : LocalFS α)
    (hA : (stA.map Prod.fst).Nodup) (hG : (stG.map Prod.fst).Nodup)
    (hL : (fsL.files.map Prod.fst).Nodup) :
    flatRecordsAt p (azure_upload_op p c2 (azure_upload_op p c1 stA)) = [c2]
    ∧ flatRecordsAt (pyLStrip '/' p)
        (gcs_upload_op p c2 (gcs_upload_op p c1 stG)) = [c2]
    ∧ flatRecordsAt (osPathJoin base p)
        (local_upload_op base p c2 (local_upload_op base p c1 fsL)).files = [c2]
    ∧ (driveLookup p (driveUpload p c2 (driveUpload p c1 drvEmpty))).map
        (·.content) = [some c2]
    ∧ (driveUpload p c2 (driveUpload p c1 drvEmpty)).items.length
      = (driveUpload p c1 drvEmpty).items.length
    ∧ (driveLookup p (driveUpload p c2 (driveUpload p c1 drvEmpty))).map (·.id)
      = (driveLookup p (driveUpload p c1 drvEmpty)).map (·.id) := by
  refine ⟨?_, ?_, ?_, ?_, ?_, ?_⟩
  · rw [azure_upload_op, azure_upload_op]
    exact flatRecordsAt_flatPut p c2 _ (flatPut_nodup p c1 stA hA)
  · rw [gcs_upload_op, gcs_upload_op]
    exact flatRecordsAt_flatPut _ c2 _ (flatPut_nodup _ c1 stG hG)
  · rw [local_upload_op_files, local_upload_op_files]
    exact flatRecordsAt_flatPut _ c2 _ (flatPut_nodup _ c1 fsL.files hL)
  · rw [driveUpload_eq_At, driveUpload_eq_At, driveLookup_eq_At]
    rw [driveUploadAt_first, driveUploadAt_second, driveLookupAt_stAfterPut]
    rfl
  · rw [driveUpload_eq_At, driveUpload_eq_At]
    rw [driveUploadAt_first, driveUploadAt_second]
    simp [stAfterPut]
  · rw [driveUpload_eq_At, driveUpload_eq_At, driveLookup_eq_At,
      driveLookup_eq_At]
    rw [driveUploadAt_first, driveUploadAt_second, driveLookupAt_stAfterPut,
      driveLookupAt_stAfterPut]
    rfl

/-- Witness for claim C5 at the path `a/b` with contents 0 then 1. -/
theorem c5_idempotent_overwrite_witness :
    ((([("x", (5 : Nat))].map Prod.fst).Nodup)
      ∧ (([("y", (7 : Nat))].map Prod.fst).Nodup)
      ∧ ((((⟨[("/m/z", (9 : Nat))], ["/m"]⟩ : LocalFS Nat)).files.map
          Prod.fst).Nodup))
    ∧ (flatRecordsAt "a/b"
        (azure_upload_op "a/b" (1 : Nat) (azure_upload_op "a/b" 0 [("x", 5)]))
          = [1]
      ∧ flatRecordsAt (pyLStrip '/' "a/b")
        (gcs_upload_op "a/b" (1 : Nat) (gcs_upload_op "a/b" 0 [("y", 7)])) = [1]
      ∧ flatRecordsAt (osPathJoin "/m" "a/b")
        (local_upload_op "/m" "a/b" (1 : Nat)
          (local_upload_op "/m" "a/b" 0
            (⟨[("/m/z", (9 : Nat))], ["/m"]⟩ : LocalFS Nat))).files = [1]
      ∧ (driveLookup "a/b"
          (driveUpload "a/b" (1 : Nat) (driveUpload "a/b" 0 drvEmpty))).map
            (·.content) = [some 1]
      ∧ (driveUpload "a/b" (1 : Nat) (driveUpload "a/b" 0 drvEmpty)).items.length
        = (driveUpload "a/b" (0 : Nat) drvEmpty).items.length
      ∧ (driveLookup "a/b"
          (driveUpload "a/b" (1 : Nat) (driveUpload "a/b" 0 drvEmpty))).map (·.id)
        = (driveLookup "a/b" (driveUpload "a/b" (0 : Nat) drvEmpty)).map (·.id)) :=
  ⟨⟨by decide, by decide, by decide⟩,
    c5_idempotent_overwrite "/m" "a/b" 0 1 [("x", 5)] [("y", 7)]
      ⟨[("/m/z", (9 : Nat))], ["/m"]⟩ (by decide) (by decide) (by decide)⟩

/-! ## Claim C9 -/

/-- Claim C9 holds: on the local backend an absolute caller-supplied
path makes `os.path.join` discard the configured media root, so `upload`
writes the content at the absolute path itself and `delete_by_prefix`
removes the directory tree or file at the absolute path itself — the
interface does not confine operations to the storage root. -/
theorem c9_absolute_path_escape {α : Type} (base p : String) (c : α)
    (fs fsD fsF : LocalFS α)
    (habs : strStartsWith p "/" = true)
    (hdir : fsIsDir p fsD = true)
    (hnd : fsIsDir p fsF = false) (hf : fsIsFile p fsF = true) :
    osPathJoin base p = p
    ∧ (local_upload_op base p c fs).files = flatPut p c fs.files
    ∧ local_delete_by_prefix_call base false p fsD = .ok (fsRmtree p fsD)
    ∧ local_delete_by_prefix_call base false p fsF = .ok (fsRemove p fsF) := by
  have hjoin : osPathJoin base p = p := by
    rw [osPathJoin, if_pos habs]
  refine ⟨hjoin, ?_, ?_, ?_⟩
  · rw [local_upload_op]
    simp only [hjoin]
    by_cases hex : fsExists (osPathDirname p) fs = true
    · simp only [hex, if_true]
    · simp only [hex, if_false, Bool.not_eq_true] at *
      simp [hex, fsMakedirs]
  · rw [local_delete_by_prefix_call, local_delete_by_prefix_op]
    simp only [hjoin, hdir]
    simp
  · rw [local_delete_by_prefix_call, local_delete_by_prefix_op]
    simp only [hjoin, hnd, hf]
    simp

/-- Witness for claim C9 at the absolute path `/etc/app` with media
root `/srv/media`. -/
theorem c9_absolute_path_escape_witness :
    (strStartsWith "/etc/app" "/" = true
      ∧ fsIsDir "/etc/app"
          (⟨[("/etc/app/conf", (1 : Nat))], ["/etc/app"]⟩ : LocalFS Nat) = true
      ∧ fsIsDir "/etc/app" (⟨[("/etc/app", (2 : Nat))], []⟩ : LocalFS Nat) = false
      ∧ fsIsFile "/etc/app" (⟨[("/etc/app", (2 : Nat))], []⟩ : LocalFS Nat) = true)
    ∧ (osPathJoin "/srv/media" "/etc/app" = "/etc/app"
      ∧ (local_upload_op "/srv/media" "/etc/app" (0 : Nat)
          (⟨[], []⟩ : LocalFS Nat)).files = flatPut "/etc/app" 0 []
      ∧ local_delete_by_prefix_call "/srv/media" false "/etc/app"
          (⟨[("/etc/app/conf", (1 : Nat))], ["/etc/app"]⟩ : LocalFS Nat)
        = .ok (fsRmtree "/etc/app" ⟨[("/etc/app/conf", (1 : Nat))], ["/etc/app"]⟩)
      ∧ local_delete_by_prefix_call "/srv/media" false "/etc/app"
          (⟨[("/etc/app", (2 : Nat))], []⟩ : LocalFS Nat)
        = .ok (fsRemove "/etc/app" ⟨[("/etc/app", (2 : Nat))], []⟩)) :=
  ⟨⟨by decide, by decide, by decide, by decide⟩,
    c9_absolute_path_escape "/srv/media" "/etc/app" 0 ⟨[], []⟩ _ _
      (by decide) (by decide) (by decide) (by decide)⟩
